import Mathlib

/-!
# Verification of the MyAppTracker ledger and parsing pipeline

A shallow embedding of the core of `src/App.tsx` (with the data model of the
repository's type declarations and `src/constants.ts`).

Modelling conventions:
* JavaScript numbers are modelled as `Int` (amounts, balances, ids, times).
* A date string is represented by the time value that `new Date(s).getTime()`
  would produce for it, so a `date` field is an `Option Int` (`none` = null /
  absent).  The sort comparator `new Date(t.date || 0).getTime()` therefore
  becomes `t.date.getD 0`.  Note that the app's own Persian-calendar date
  strings such as "1403/05/01" are parsed by `new Date` as year 1403 AD and
  hence have a negative time value.
* At runtime the parser output may lack `amount` or `type`, so those fields
  are `Option`-typed; JavaScript truthiness (`!x`) makes `0` count as absent
  for `amount`.
* The asynchronous `handleParseSms` is split into its synchronous prefix
  (`handleParseSmsStart`, everything before the `await`) and its continuation
  (`handleParseSmsResolve` when the parser promise resolves,
  `handleRejectParse` when it rejects).  The number of parser invocations
  whose continuation has not yet run is tracked in `pendingParses`.
* React component props/icons and rendering are outside the embedding; only
  the state and the handlers are modelled.
-/

namespace MyAppTracker

inductive TxType where
  | income
  | expense
deriving DecidableEq, Repr

/-- `TransactionCategory` from the type declarations; the `icon` component
reference is rendering-only and not modelled. -/
structure TransactionCategory where
  id : Int
  name : String
deriving DecidableEq, Repr

/-- `ParsedTransaction`: the external parser's raw output, and also the shape
of the staged candidate `transactionToEdit` (an
`Omit<Transaction, 'id' | 'category' | 'accountId'>`). -/
structure ParsedTransaction where
  amount : Option Int
  type : Option TxType
  bank : Option String
  date : Option Int
  time : Option String
deriving DecidableEq, Repr

structure Transaction where
  id : Int
  accountId : Int
  amount : Option Int
  type : Option TxType
  bank : Option String
  date : Option Int
  time : Option String
  category : TransactionCategory
  notes : String
deriving DecidableEq, Repr

structure Account where
  id : Int
  name : String
  initialBalance : Int
deriving DecidableEq, Repr

structure AccountWithBalance extends Account where
  currentBalance : Int
deriving DecidableEq, Repr

structure MockSms where
  id : Int
  sender : String
  text : String
deriving DecidableEq, Repr

structure Debt where
  id : Int
  description : String
  amount : Int
  dueDate : Int
  isPaid : Bool
deriving DecidableEq, Repr

/-- The argument record of `handleSaveTransaction`:
`{ category, notes, accountId }`. -/
structure SaveDetails where
  category : TransactionCategory
  notes : String
  accountId : Int
deriving DecidableEq, Repr

/-! ## Ledger Engine: derived balances (App.tsx lines 62-70) -/

/-- The `reduce` of `accountsWithBalance` for one account:
starts from `acc.initialBalance`; skips transactions of other accounts;
adds the amount for `type === 'income'`, subtracts it otherwise. -/
def accountBalance (transactions : List Transaction) (acc : Account) : Int :=
  transactions.foldl
    (fun sum t =>
      if t.accountId ≠ acc.id then sum
      else if t.type = (some TxType.income) then sum + t.amount.getD 0
      else sum - t.amount.getD 0)
    acc.initialBalance

/-- `accountsWithBalance` (App.tsx line 62): every account paired with its
recomputed `currentBalance`. -/
def accountsWithBalance (accounts : List Account) (transactions : List Transaction) :
    List AccountWithBalance :=
  accounts.map (fun acc =>
    { toAccount := acc, currentBalance := accountBalance transactions acc })

/-- Sum of the amounts of the transactions of account `accId` having the given
type (used to state the balance specification). -/
def sumFor (accId : Int) (ty : TxType) (ts : List Transaction) : Int :=
  ts.foldr
    (fun t s =>
      if t.accountId = accId ∧ t.type = some ty then t.amount.getD 0 + s else s)
    0

/-! ## Ledger Engine: the sorted transaction log (App.tsx line 103) -/

/-- The sort key of the comparator `new Date(b.date || 0).getTime()`:
an absent date falls back to time 0 (the epoch). -/
def dateKey (t : Transaction) : Int :=
  t.date.getD 0

/-- The boolean order corresponding to the comparator
`(a, b) => new Date(b.date || 0).getTime() - new Date(a.date || 0).getTime()`:
`a` may precede `b` exactly when `dateKey b ≤ dateKey a` (date descending). -/
def txLe (a b : Transaction) : Bool :=
  decide (dateKey b ≤ dateKey a)

/-- `[...].sort(comparator)`: JavaScript `Array.prototype.sort` is a stable
sort, modelled by `List.mergeSort`. -/
def sortTransactions (l : List Transaction) : List Transaction :=
  l.mergeSort txLe

/-- The log update of a commit:
`[newTransaction, ...prev].sort(comparator)`. -/
def commitLog (t : Transaction) (log : List Transaction) : List Transaction :=
  sortTransactions (t :: log)

/-- A sequence of commits applied in order to a starting log. -/
def commitAll (log : List Transaction) : List Transaction → List Transaction
  | [] => log
  | t :: ts => commitAll (commitLog t log) ts

/-! ## Parsing Pipeline state machine (App.tsx lines 36-133) -/

structure AppState where
  accounts : List Account
  transactions : List Transaction
  categories : List TransactionCategory
  smsInbox : List MockSms
  isEditModalOpen : Bool
  isParsing : Bool
  parsingError : Option String
  transactionToEdit : Option ParsedTransaction
  smsToProcess : Option MockSms
  pendingParses : Nat
deriving DecidableEq, Repr

/-- The message of the completeness check in `handleParseSms`. -/
def errIncomplete : String :=
  "اطلاعات استخراج شده از پیامک ناقص است."

/-- JavaScript truthiness of the parsed `amount` field:
`!parsedData.amount` is true for an absent amount and also for `0`. -/
def truthyAmount : Option Int → Bool
  | none => false
  | some a => a ≠ 0

/-- JavaScript truthiness of the parsed `type` field:
present (a non-empty string tag) is truthy. -/
def truthyType : Option TxType → Bool
  | none => false
  | some _ => true

/-- The synchronous prefix of `handleParseSms` (App.tsx lines 72-75):
set `isParsing`, clear the error, point `smsToProcess` at the message, and
invoke the external parser (one more pending invocation).  There is no guard
against an already in-flight parse. -/
def handleParseSmsStart (sms : MockSms) (s : AppState) : AppState :=
  { s with
    isParsing := true
    parsingError := none
    smsToProcess := some sms
    pendingParses := s.pendingParses + 1 }

/-- The continuation of `handleParseSms` when the parser promise resolves
(App.tsx lines 77-91).  `res = none` models `parseBankSms` resolving with a
null/undefined value (`!parsedData` throws the incompleteness error); a
result whose `amount` or `type` is falsy throws the same error; otherwise the
candidate is staged with the current date as fallback and the modal opens.
`finally` clears `isParsing` on every path.  The continuation never checks
`smsToProcess`, and it is a no-op only when no invocation is pending. -/
def handleParseSmsResolve (res : Option ParsedTransaction) (now : Int)
    (s : AppState) : AppState :=
  if s.pendingParses = 0 then s
  else
    let s1 := { s with pendingParses := s.pendingParses - 1 }
    match res with
    | none =>
        { s1 with parsingError := some errIncomplete, isParsing := false }
    | some pd =>
        if truthyAmount pd.amount && truthyType pd.type then
          { s1 with
            transactionToEdit := some { pd with date := some (pd.date.getD now) }
            isEditModalOpen := true
            isParsing := false }
        else
          { s1 with parsingError := some errIncomplete, isParsing := false }

/-- The `catch` branch of `handleParseSms` when the parser promise rejects:
the error message is surfaced and `finally` clears `isParsing`. -/
def handleRejectParse (msg : String) (s : AppState) : AppState :=
  if s.pendingParses = 0 then s
  else
    { s with
      pendingParses := s.pendingParses - 1
      parsingError := some msg
      isParsing := false }

/-- The transaction record built by `handleSaveTransaction`:
`{ id: Date.now(), ...transactionToEdit, category, notes, accountId }`. -/
def mkTransaction (cand : ParsedTransaction) (details : SaveDetails)
    (now : Int) : Transaction :=
  { id := now
    accountId := details.accountId
    amount := cand.amount
    type := cand.type
    bank := cand.bank
    date := cand.date
    time := cand.time
    category := details.category
    notes := details.notes }

/-- `handleSaveTransaction` (App.tsx lines 94-116): fires only when a
candidate is staged and `details.accountId` is truthy (nonzero); builds the
new transaction with `id = Date.now()` (the `now` argument), prepends it and
re-sorts, removes every inbox message whose id equals `smsToProcess`'s id,
and resets the modal/pipeline fields.  No existence check is performed on
`accountId` or the category, and the candidate is not re-validated. -/
def handleSaveTransaction (details : SaveDetails) (now : Int)
    (s : AppState) : AppState :=
  match s.transactionToEdit with
  | some cand =>
      if details.accountId ≠ 0 then
        { s with
          transactions := commitLog (mkTransaction cand details now) s.transactions
          smsInbox :=
            match s.smsToProcess with
            | some sms => s.smsInbox.filter (fun m => m.id ≠ sms.id)
            | none => s.smsInbox
          isEditModalOpen := false
          transactionToEdit := none
          smsToProcess := none
          parsingError := none }
      else s
  | none => s

/-- `handleCloseEditModal` (App.tsx lines 118-123): abandoning the process
closes the modal, discards the candidate and the message reference, and
clears the error. -/
def handleCloseEditModal (s : AppState) : AppState :=
  { s with
    isEditModalOpen := false
    transactionToEdit := none
    smsToProcess := none
    parsingError := none }

/-- The discrete events that drive the pipeline.  `resolveParse` and
`rejectParse` model the external parser's promise settling for one of the
pending invocations (the continuation captures no other data from the
invocation, so which pending invocation settles is immaterial). -/
inductive Event where
  | startParse (sms : MockSms)
  | resolveParse (res : Option ParsedTransaction) (now : Int)
  | rejectParse (msg : String)
  | save (details : SaveDetails) (now : Int)
  | closeModal
deriving DecidableEq, Repr

def step (s : AppState) : Event → AppState
  | Event.startParse sms => handleParseSmsStart sms s
  | Event.resolveParse res now => handleParseSmsResolve res now s
  | Event.rejectParse msg => handleRejectParse msg s
  | Event.save details now => handleSaveTransaction details now s
  | Event.closeModal => handleCloseEditModal s

def run (s : AppState) : List Event → AppState
  | [] => s
  | e :: es => run (step s e) es

/-- A fresh application state over the given accounts and inbox: empty
transaction log, modal closed, nothing staged, no parse in flight. -/
def initialState (accounts : List Account) (inbox : List MockSms) : AppState :=
  { accounts := accounts
    transactions := []
    categories := []
    smsInbox := inbox
    isEditModalOpen := false
    isParsing := false
    parsingError := none
    transactionToEdit := none
    smsToProcess := none
    pendingParses := 0 }

/-- Whether a `save` event fires from state `s` (the guard
`transactionToEdit && details.accountId`). -/
def saveFires (s : AppState) (details : SaveDetails) : Bool :=
  s.transactionToEdit.isSome && decide (details.accountId ≠ 0)

/-- The `Date.now()` values of all `save` events of a trace, in order. -/
def saveNows : List Event → List Int
  | [] => []
  | Event.save _ now :: es => now :: saveNows es
  | _ :: es => saveNows es

/-- The ids of the transactions actually committed along a run, in commit
order (a firing `save` commits a transaction with `id = now`). -/
def committedIds (s : AppState) : List Event → List Int
  | [] => []
  | Event.save details now :: es =>
      (if saveFires s details then [now] else []) ++
        committedIds (step s (Event.save details now)) es
  | e :: es => committedIds (step s e) es

/-! ## Debt Tracker (App.tsx lines 203-232) -/

inductive DebtStatus where
  | paid
  | upcoming (daysRemaining : Int)
  | dueToday
  | overdue (daysPast : Int)
deriving DecidableEq, Repr

def msPerDay : Int := 86400000

/-- `Math.ceil` of the exact quotient `a / b` for a positive divisor,
on integers: `⌈a / b⌉ = -(⌊-a / b⌋)`. -/
def ceilDiv (a b : Int) : Int :=
  -((-a).fdiv b)

/-- `getDueDateStatus` (App.tsx lines 221-232), with the status text rendered
as a `DebtStatus` value: paid short-circuits; otherwise
`diffDays = Math.ceil((due - todayMidnight) / msPerDay)` decides among
upcoming / due-today / overdue.  `dueTime` is the time value of
`new Date(dueDate)` and `todayMidnight` that of today normalized to
midnight. -/
def getDueDateStatus (dueTime todayMidnight : Int) (isPaid : Bool) : DebtStatus :=
  if isPaid then DebtStatus.paid
  else
    let diffTime := dueTime - todayMidnight
    let diffDays := ceilDiv diffTime msPerDay
    if diffDays > 0 then DebtStatus.upcoming diffDays
    else if diffDays = 0 then DebtStatus.dueToday
    else DebtStatus.overdue (-diffDays)

/-- The status of one debt record relative to today's midnight. -/
def statusOf (todayMidnight : Int) (d : Debt) : DebtStatus :=
  getDueDateStatus d.dueDate todayMidnight d.isPaid

/-- `togglePaid` (App.tsx lines 217-219): flip `isPaid` of the debt with the
given id. -/
def togglePaid (did : Int) (debts : List Debt) : List Debt :=
  debts.map (fun d => if d.id = did then { d with isPaid := !d.isPaid } else d)

/-! ## Helper lemmas -/

/-- The log order used throughout: date key descending along the list. -/
def sortedLog (l : List Transaction) : Prop :=
  l.Pairwise (fun a b => dateKey b ≤ dateKey a)

theorem txLe_trans (a b c : Transaction) (hab : txLe a b) (hbc : txLe b c) :
    txLe a c := by
  simp only [txLe, decide_eq_true_eq] at *
  omega

theorem txLe_total (a b : Transaction) : txLe a b || txLe b a := by
  simp only [txLe, Bool.or_eq_true, decide_eq_true_eq]
  omega

theorem sortedLog_commitLog (t : Transaction) (l : List Transaction) :
    sortedLog (commitLog t l) := by
  have h := @List.sorted_mergeSort Transaction txLe txLe_trans txLe_total (t :: l)
  exact h.imp (fun hab => by simpa [txLe, decide_eq_true_eq] using hab)

theorem commitAll_append (l : List Transaction) (ts us : List Transaction) :
    commitAll l (ts ++ us) = commitAll (commitAll l ts) us := by
  induction ts generalizing l with
  | nil => rfl
  | cons t ts ih => simpa [commitAll] using ih (commitLog t l)

theorem pair_sublist_commitLog {u v : Transaction} (t : Transaction)
    (l : List Transaction) (huv : txLe u v) (h : List.Sublist [u, v] l) :
    List.Sublist [u, v] (commitLog t l) :=
  List.pair_sublist_mergeSort txLe_trans txLe_total huv
    (h.trans (List.sublist_cons_self t l))

theorem pair_sublist_commitAll {u v : Transaction} (ts : List Transaction)
    (l : List Transaction) (huv : txLe u v) (h : List.Sublist [u, v] l) :
    List.Sublist [u, v] (commitAll l ts) := by
  induction ts generalizing l with
  | nil => exact h
  | cons t ts ih => exact ih _ (pair_sublist_commitLog t l huv h)

theorem mem_commitLog_of_mem {x : Transaction} (t : Transaction)
    (l : List Transaction) (h : x ∈ l) : x ∈ commitLog t l := by
  simp only [commitLog, sortTransactions, List.mem_mergeSort, List.mem_cons]
  exact Or.inr h

theorem self_mem_commitLog (t : Transaction) (l : List Transaction) :
    t ∈ commitLog t l := by
  simp [commitLog, sortTransactions]

theorem commitLog_nil (t : Transaction) : commitLog t [] = [t] := by
  simp [commitLog, sortTransactions]

theorem commitLog_single {t u : Transaction} (h : txLe t u) :
    commitLog t [u] = [t, u] := by
  have : List.Pairwise (fun a b => txLe a b = true) [t, u] := by
    simp [h]
  simpa [commitLog, sortTransactions] using List.mergeSort_of_sorted this

theorem sumFor_cons (accId : Int) (ty : TxType) (t : Transaction)
    (ts : List Transaction) :
    sumFor accId ty (t :: ts)
      = if t.accountId = accId ∧ t.type = some ty then
          t.amount.getD 0 + sumFor accId ty ts
        else sumFor accId ty ts := rfl

theorem accountBalance_eq_sums (ts : List Transaction)
    (hwf : ∀ t ∈ ts, t.type = some TxType.income ∨ t.type = some TxType.expense) :
    ∀ acc : Account,
      accountBalance ts acc
        = acc.initialBalance + sumFor acc.id TxType.income ts
            - sumFor acc.id TxType.expense ts := by
  induction ts with
  | nil => intro acc; simp [accountBalance, sumFor]
  | cons t ts ih =>
      intro acc
      have ht := hwf t (List.mem_cons_self t ts)
      have hts : ∀ u ∈ ts, u.type = some TxType.income ∨ u.type = some TxType.expense :=
        fun u hu => hwf u (List.mem_cons_of_mem t hu)
      have hstep : accountBalance (t :: ts) acc
          = accountBalance ts { acc with initialBalance :=
              if t.accountId ≠ acc.id then acc.initialBalance
              else if t.type = (some TxType.income) then
                acc.initialBalance + t.amount.getD 0
              else acc.initialBalance - t.amount.getD 0 } := rfl
      rw [hstep, ih hts]
      simp only [sumFor_cons]
      by_cases hacc : t.accountId = acc.id
      · rcases ht with hty | hty <;> simp [hacc, hty] <;> omega
      · simp [hacc]

theorem accountBalance_cons_other (t0 : Transaction) (ts : List Transaction)
    (acc : Account) (h : t0.accountId ≠ acc.id) :
    accountBalance (t0 :: ts) acc = accountBalance ts acc := by
  simp [accountBalance, h]

theorem accountBalance_filter (ts : List Transaction) : ∀ acc : Account,
    accountBalance ts acc
      = accountBalance (ts.filter (fun t => t.accountId = acc.id)) acc := by
  induction ts with
  | nil => intro acc; rfl
  | cons t ts ih =>
      intro acc
      by_cases h : t.accountId = acc.id
      · have hf : (t :: ts).filter (fun u => u.accountId = acc.id)
            = t :: ts.filter (fun u => u.accountId = acc.id) := by
          simp [List.filter_cons, h]
        rw [hf]
        exact ih { acc with initialBalance :=
          if t.accountId ≠ acc.id then acc.initialBalance
          else if t.type = (some TxType.income) then
            acc.initialBalance + t.amount.getD 0
          else acc.initialBalance - t.amount.getD 0 }
      · have hf : (t :: ts).filter (fun u => u.accountId = acc.id)
            = ts.filter (fun u => u.accountId = acc.id) := by
          simp [List.filter_cons, h]
        rw [hf, accountBalance_cons_other t ts acc h]
        exact ih acc

/-- **C1** (confirmed).  For well-typed transactions (amount present, type
either income or expense, as the repository's `Transaction` type declares),
the derived balance view gives every account
`currentBalance = initialBalance + Σ income − Σ expense` over its own
transactions; the balance ignores transactions of other accounts (prepending
one changes nothing, and filtering the log down to the account's own
transactions changes nothing); on an empty log every account shows its
`initialBalance`. -/
theorem claim_C1_balances (accounts : List Account) (ts : List Transaction)
    (hwf : ∀ t ∈ ts, t.amount.isSome = true ∧
      (t.type = some TxType.income ∨ t.type = some TxType.expense)) :
    (∀ awb ∈ accountsWithBalance accounts ts,
        awb.currentBalance
          = awb.initialBalance + sumFor awb.id TxType.income ts
              - sumFor awb.id TxType.expense ts)
  ∧ (∀ (acc : Account) (t0 : Transaction), t0.accountId ≠ acc.id →
        accountBalance (t0 :: ts) acc = accountBalance ts acc)
  ∧ (∀ acc : Account,
        accountBalance ts acc
          = accountBalance (ts.filter (fun t => t.accountId = acc.id)) acc)
  ∧ (∀ awb ∈ accountsWithBalance accounts [], awb.currentBalance = awb.initialBalance) := by
  have hwf2 : ∀ t ∈ ts, t.type = some TxType.income ∨ t.type = some TxType.expense :=
    fun t h => (hwf t h).2
  refine ⟨?_, ?_, accountBalance_filter ts, ?_⟩
  · intro awb hmem
    obtain ⟨acc, hacc, rfl⟩ := List.mem_map.mp hmem
    exact accountBalance_eq_sums ts hwf2 acc
  · intro acc t0 h
    exact accountBalance_cons_other t0 ts acc h
  · intro awb hmem
    obtain ⟨acc, hacc, rfl⟩ := List.mem_map.mp hmem
    rfl

/-- Witness for C1: the spec scenario — account with initial balance
1,000,000; an expense of 200,000 and an income of 50,000 committed for it
yield the stated sums (and so `currentBalance = 850,000`). -/
theorem claim_C1_witness :
    (∀ awb ∈ accountsWithBalance
        [{ id := 1, name := "A", initialBalance := 1000000 }]
        [{ id := 10, accountId := 1, amount := some 200000,
           type := some TxType.expense, bank := none, date := none, time := none,
           category := { id := 1, name := "c" }, notes := "" },
         { id := 11, accountId := 1, amount := some 50000,
           type := some TxType.income, bank := none, date := none, time := none,
           category := { id := 1, name := "c" }, notes := "" }],
        awb.currentBalance
          = awb.initialBalance
              + sumFor awb.id TxType.income
                  [{ id := 10, accountId := 1, amount := some 200000,
                     type := some TxType.expense, bank := none, date := none, time := none,
                     category := { id := 1, name := "c" }, notes := "" },
                   { id := 11, accountId := 1, amount := some 50000,
                     type := some TxType.income, bank := none, date := none, time := none,
                     category := { id := 1, name := "c" }, notes := "" }]
              - sumFor awb.id TxType.expense
                  [{ id := 10, accountId := 1, amount := some 200000,
                     type := some TxType.expense, bank := none, date := none, time := none,
                     category := { id := 1, name := "c" }, notes := "" },
                   { id := 11, accountId := 1, amount := some 50000,
                     type := some TxType.income, bank := none, date := none, time := none,
                     category := { id := 1, name := "c" }, notes := "" }]) ∧
    accountBalance
        [{ id := 10, accountId := 1, amount := some 200000,
           type := some TxType.expense, bank := none, date := none, time := none,
           category := { id := 1, name := "c" }, notes := "" },
         { id := 11, accountId := 1, amount := some 50000,
           type := some TxType.income, bank := none, date := none, time := none,
           category := { id := 1, name := "c" }, notes := "" }]
        { id := 1, name := "A", initialBalance := 1000000 } = 850000 :=
  ⟨(claim_C1_balances _ _ (by decide)).1, by decide⟩

theorem resolve_frame (res : Option ParsedTransaction) (now : Int) (s : AppState) :
    (handleParseSmsResolve res now s).transactions = s.transactions
  ∧ (handleParseSmsResolve res now s).smsInbox = s.smsInbox
  ∧ (handleParseSmsResolve res now s).smsToProcess = s.smsToProcess
  ∧ (handleParseSmsResolve res now s).accounts = s.accounts := by
  unfold handleParseSmsResolve
  split
  · exact ⟨rfl, rfl, rfl, rfl⟩
  · split
    · exact ⟨rfl, rfl, rfl, rfl⟩
    · split <;> exact ⟨rfl, rfl, rfl, rfl⟩

theorem reject_frame (msg : String) (s : AppState) :
    (handleRejectParse msg s).transactions = s.transactions
  ∧ (handleRejectParse msg s).smsInbox = s.smsInbox
  ∧ (handleRejectParse msg s).smsToProcess = s.smsToProcess
  ∧ (handleRejectParse msg s).transactionToEdit = s.transactionToEdit := by
  unfold handleRejectParse
  split <;> exact ⟨rfl, rfl, rfl, rfl⟩

/-- Shared concrete objects for counterexamples and witnesses. -/
def cexCategory : TransactionCategory := { id := 1, name := "c" }

def cexSms1 : MockSms := { id := 1, sender := "b1", text := "t1" }

def cexSms2 : MockSms := { id := 2, sender := "b2", text := "t2" }

/-- A complete parser result (truthy amount and type). -/
def cexParsed : ParsedTransaction :=
  { amount := some 5, type := some TxType.income, bank := none,
    date := some 3, time := none }

def cexAccount : Account := { id := 5, name := "A", initialBalance := 0 }

/-- **C4** (corrected, counterexample).  `handleParseSms` has no single-flight
guard: from the state where the parse of message 1 is in flight
(`isParsing = true`), invoking it for message 2 starts a second concurrent
parser invocation — two messages are in flight at once, contradicting
"at most one message is in flight at a time". -/
theorem claim_C4_counterexample :
    (step (initialState [] [cexSms1, cexSms2]) (Event.startParse cexSms1)).isParsing = true
  ∧ (step (step (initialState [] [cexSms1, cexSms2]) (Event.startParse cexSms1))
        (Event.startParse cexSms2)).pendingParses = 2
  ∧ ¬ (step (step (initialState [] [cexSms1, cexSms2]) (Event.startParse cexSms1))
        (Event.startParse cexSms2)).pendingParses ≤ 1 :=
  ⟨rfl, rfl, by decide⟩

/-- **C4** (amended).  Invoking `startParse` never itself stages a candidate,
commits a transaction, or touches the inbox — so it cannot by itself
duplicate a commit — but it enforces no single-flight discipline: it
unconditionally starts one more in-flight parser invocation (even while one
is already in flight) and repoints `smsToProcess` at the new message
(last-writer-wins).  Only re-parsing the very message already being parsed is
disabled, in the UI button. -/
theorem claim_C4_amended (s : AppState) (sms : MockSms) :
    (handleParseSmsStart sms s).pendingParses = s.pendingParses + 1
  ∧ (handleParseSmsStart sms s).transactionToEdit = s.transactionToEdit
  ∧ (handleParseSmsStart sms s).transactions = s.transactions
  ∧ (handleParseSmsStart sms s).smsInbox = s.smsInbox
  ∧ (handleParseSmsStart sms s).smsToProcess = some sms
  ∧ (handleParseSmsStart sms s).isParsing = true :=
  ⟨rfl, rfl, rfl, rfl, rfl, rfl⟩

/-- **C5** (corrected, counterexample).  Message 1 and message 2 are parsed
concurrently (the UI only disables re-parsing the same message); message 1's
result arrives and is staged; the user aborts (`handleCloseEditModal`); then
message 2's late response arrives for the aborted process.  It is NOT
ignored — the continuation never checks that the pipeline still references
its message — so the candidate is staged again and the review modal reopens:
the pipeline does not remain Idle. -/
theorem claim_C5_counterexample :
    (run (initialState [cexAccount] [cexSms1, cexSms2])
        [Event.startParse cexSms1, Event.startParse cexSms2,
         Event.resolveParse (some cexParsed) 100, Event.closeModal,
         Event.resolveParse (some cexParsed) 100]).transactionToEdit
      = some { cexParsed with date := some 3 }
  ∧ (run (initialState [cexAccount] [cexSms1, cexSms2])
        [Event.startParse cexSms1, Event.startParse cexSms2,
         Event.resolveParse (some cexParsed) 100, Event.closeModal,
         Event.resolveParse (some cexParsed) 100]).isEditModalOpen = true := by
  constructor <;> rfl

/-- **C5** (amended).  A parser resolution with a complete result — late or
not, aborted or not, with no check that the pipeline still references its
message — always stages its candidate and re-opens review (the pipeline does
not stay Idle); however the resolution itself creates no transaction and
leaves the inbox and `smsToProcess` untouched. -/
theorem claim_C5_amended (s : AppState) (pd : ParsedTransaction) (now : Int)
    (hp : s.pendingParses ≠ 0)
    (ha : truthyAmount pd.amount = true) (ht : truthyType pd.type = true) :
    (handleParseSmsResolve (some pd) now s).transactions = s.transactions
  ∧ (handleParseSmsResolve (some pd) now s).smsInbox = s.smsInbox
  ∧ (handleParseSmsResolve (some pd) now s).smsToProcess = s.smsToProcess
  ∧ (handleParseSmsResolve (some pd) now s).transactionToEdit
      = some { pd with date := some (pd.date.getD now) }
  ∧ (handleParseSmsResolve (some pd) now s).isEditModalOpen = true := by
  unfold handleParseSmsResolve
  simp [hp, ha, ht]

/-- Witness for the amended C5 at a concrete input. -/
theorem claim_C5_witness :
    (handleParseSmsResolve (some cexParsed) 100
        (handleCloseEditModal
          (handleParseSmsStart cexSms1
            (initialState [cexAccount] [cexSms1])))).transactions
      = (handleCloseEditModal
          (handleParseSmsStart cexSms1
            (initialState [cexAccount] [cexSms1]))).transactions
  ∧ (handleParseSmsResolve (some cexParsed) 100
        (handleCloseEditModal
          (handleParseSmsStart cexSms1
            (initialState [cexAccount] [cexSms1])))).smsInbox
      = (handleCloseEditModal
          (handleParseSmsStart cexSms1
            (initialState [cexAccount] [cexSms1]))).smsInbox
  ∧ (handleParseSmsResolve (some cexParsed) 100
        (handleCloseEditModal
          (handleParseSmsStart cexSms1
            (initialState [cexAccount] [cexSms1])))).smsToProcess
      = (handleCloseEditModal
          (handleParseSmsStart cexSms1
            (initialState [cexAccount] [cexSms1]))).smsToProcess
  ∧ (handleParseSmsResolve (some cexParsed) 100
        (handleCloseEditModal
          (handleParseSmsStart cexSms1
            (initialState [cexAccount] [cexSms1])))).transactionToEdit
      = some { cexParsed with date := some (cexParsed.date.getD 100) }
  ∧ (handleParseSmsResolve (some cexParsed) 100
        (handleCloseEditModal
          (handleParseSmsStart cexSms1
            (initialState [cexAccount] [cexSms1])))).isEditModalOpen = true :=
  claim_C5_amended _ cexParsed 100 (by decide) (by decide) (by decide)

/-- **C10** (confirmed).  A parser result whose `amount` is exactly `0` is
truthiness-rejected just like a missing amount: the resolution is literally
the same state transformation as for `amount = none`; it sets the failure
message, stages nothing, opens nothing, and leaves the log unchanged, so no
transaction can arise from that result. -/
theorem claim_C10_zero_amount (s : AppState) (pd : ParsedTransaction) (now : Int)
    (hz : pd.amount = some 0) (hp : s.pendingParses ≠ 0) :
    handleParseSmsResolve (some pd) now s
        = handleParseSmsResolve (some { pd with amount := none }) now s
  ∧ (handleParseSmsResolve (some pd) now s).parsingError = some errIncomplete
  ∧ (handleParseSmsResolve (some pd) now s).transactionToEdit = s.transactionToEdit
  ∧ (handleParseSmsResolve (some pd) now s).transactions = s.transactions
  ∧ (handleParseSmsResolve (some pd) now s).isEditModalOpen = s.isEditModalOpen := by
  unfold handleParseSmsResolve
  simp [hp, hz, truthyAmount]

/-- Witness for C10 at a concrete input. -/
theorem claim_C10_witness :
    handleParseSmsResolve
        (some { cexParsed with amount := some 0 }) 100
        (handleParseSmsStart cexSms1 (initialState [cexAccount] [cexSms1]))
      = handleParseSmsResolve
          (some { cexParsed with amount := none }) 100
          (handleParseSmsStart cexSms1 (initialState [cexAccount] [cexSms1]))
  ∧ (handleParseSmsResolve
        (some { cexParsed with amount := some 0 }) 100
        (handleParseSmsStart cexSms1 (initialState [cexAccount] [cexSms1]))).parsingError
      = some errIncomplete
  ∧ (handleParseSmsResolve
        (some { cexParsed with amount := some 0 }) 100
        (handleParseSmsStart cexSms1 (initialState [cexAccount] [cexSms1]))).transactionToEdit
      = (handleParseSmsStart cexSms1 (initialState [cexAccount] [cexSms1])).transactionToEdit
  ∧ (handleParseSmsResolve
        (some { cexParsed with amount := some 0 }) 100
        (handleParseSmsStart cexSms1 (initialState [cexAccount] [cexSms1]))).transactions
      = (handleParseSmsStart cexSms1 (initialState [cexAccount] [cexSms1])).transactions
  ∧ (handleParseSmsResolve
        (some { cexParsed with amount := some 0 }) 100
        (handleParseSmsStart cexSms1 (initialState [cexAccount] [cexSms1]))).isEditModalOpen
      = (handleParseSmsStart cexSms1 (initialState [cexAccount] [cexSms1])).isEditModalOpen := by
  have h := claim_C10_zero_amount
    (handleParseSmsStart cexSms1 (initialState [cexAccount] [cexSms1]))
    { cexParsed with amount := some 0 } 100 (by decide) (by decide)
  simpa using h

theorem ceilDiv_mul_msPerDay (d : Int) : ceilDiv (d * msPerDay) msPerDay = d := by
  unfold ceilDiv
  rw [← neg_mul, Int.mul_fdiv_cancel _ (by decide : msPerDay ≠ 0), neg_neg]

/-- **C8** (confirmed).  With both times midnight-normalized — i.e. the due
time is exactly `d` whole days from today's midnight — `getDueDateStatus`
returns `paid` whenever `isPaid`, otherwise `upcoming d` for `d > 0`,
due-today for `d = 0` and `overdue |d|` for `d < 0`; in particular a debt due
yesterday (`d = -1`, unpaid) is `overdue 1`, and after `togglePaid` the same
debt is `paid`. -/
theorem claim_C8_debt_status (todayMidnight d : Int) (debt : Debt)
    (hdue : debt.dueDate = todayMidnight + d * msPerDay) :
    (debt.isPaid = true → statusOf todayMidnight debt = DebtStatus.paid)
  ∧ (debt.isPaid = false → 0 < d →
        statusOf todayMidnight debt = DebtStatus.upcoming d)
  ∧ (debt.isPaid = false → d = 0 →
        statusOf todayMidnight debt = DebtStatus.dueToday)
  ∧ (debt.isPaid = false → d < 0 →
        statusOf todayMidnight debt = DebtStatus.overdue (-d))
  ∧ (debt.isPaid = false → d = -1 →
        statusOf todayMidnight debt = DebtStatus.overdue 1
      ∧ ∀ d2 ∈ togglePaid debt.id [debt],
          statusOf todayMidnight d2 = DebtStatus.paid) := by
  have hkey : debt.dueDate - todayMidnight = d * msPerDay := by omega
  have hceil : ceilDiv (debt.dueDate - todayMidnight) msPerDay = d := by
    rw [hkey, ceilDiv_mul_msPerDay]
  refine ⟨?_, ?_, ?_, ?_, ?_⟩
  · intro hp
    simp [statusOf, getDueDateStatus, hp]
  · intro hp hd
    simp only [statusOf, getDueDateStatus, hp, Bool.false_eq_true, if_false]
    rw [hceil]
    simp [hd]
  · intro hp hd
    subst hd
    simp only [statusOf, getDueDateStatus, hp, Bool.false_eq_true, if_false]
    rw [hceil]
    simp
  · intro hp hd
    have h1 : ¬ (0 < d) := by omega
    have h2 : d ≠ 0 := by omega
    simp only [statusOf, getDueDateStatus, hp, Bool.false_eq_true, if_false]
    rw [hceil]
    simp [h1, h2]
  · intro hp hd
    subst hd
    constructor
    · have h1 : ¬ ((0 : Int) < -1) := by decide
      have h2 : (-1 : Int) ≠ 0 := by decide
      simp only [statusOf, getDueDateStatus, hp, Bool.false_eq_true, if_false]
      rw [hceil]
      norm_num
    · intro d2 hd2
      simp only [togglePaid, List.map_cons, List.map_nil, if_pos rfl,
        List.mem_singleton] at hd2
      subst hd2
      simp [statusOf, getDueDateStatus, hp]

/-- A debt due exactly one day before today's midnight, unpaid. -/
def cexDebt : Debt :=
  { id := 1, description := "w", amount := 10,
    dueDate := -86400000, isPaid := false }

/-- Witness for C8: due time = one day before midnight, unpaid. -/
theorem claim_C8_witness :
    statusOf 0 cexDebt = DebtStatus.overdue 1
  ∧ ∀ d2 ∈ togglePaid 1 [cexDebt], statusOf 0 d2 = DebtStatus.paid :=
  (claim_C8_debt_status 0 (-1) cexDebt (by decide)).2.2.2.2 rfl rfl

/-- **C2** (corrected, counterexample).  A commit attempt whose `accountId`
(99) references no existing account (the only account has id 5) and whose
category (id 1) references no existing category (the category list is empty)
does not fail with any `ValidationError` — the log, empty before the attempt,
afterwards contains the new transaction: a transaction IS added. -/
theorem claim_C2_counterexample :
    ({ initialState [cexAccount] [cexSms1] with
        transactionToEdit := some cexParsed } : AppState).transactions = []
  ∧ ({ initialState [cexAccount] [cexSms1] with
        transactionToEdit := some cexParsed } : AppState).categories = []
  ∧ (∀ a ∈ ({ initialState [cexAccount] [cexSms1] with
        transactionToEdit := some cexParsed } : AppState).accounts, a.id ≠ 99)
  ∧ (handleSaveTransaction
        { category := cexCategory, notes := "", accountId := 99 } 7
        { initialState [cexAccount] [cexSms1] with
            transactionToEdit := some cexParsed }).transactions
      = [mkTransaction cexParsed
          { category := cexCategory, notes := "", accountId := 99 } 7] := by
  refine ⟨rfl, rfl, by decide, ?_⟩
  show commitLog _ [] = _
  exact commitLog_nil _

/-- **C2** (amended).  `handleSaveTransaction` validates existence of
nothing: when no candidate is staged or `details.accountId` is `0` (falsy) it
silently does nothing — the state, in particular the log, is unchanged and no
error value exists — and for any staged candidate with any nonzero
`accountId`, known or unknown, it commits the built transaction into the
log.  The outcome is entirely independent of the stored account and category
sets: replacing them by anything (including nothing) commutes with the
commit, so no reference lookup of `accountId` or the category occurs. -/
theorem claim_C2_amended (s : AppState) (details : SaveDetails) (now : Int) :
    ((s.transactionToEdit = none ∨ details.accountId = 0) →
        handleSaveTransaction details now s = s)
  ∧ (∀ cand, s.transactionToEdit = some cand → details.accountId ≠ 0 →
        (handleSaveTransaction details now s).transactions
          = commitLog (mkTransaction cand details now) s.transactions)
  ∧ (∀ (as2 : List Account) (cs2 : List TransactionCategory),
        handleSaveTransaction details now
            { s with accounts := as2, categories := cs2 }
          = { handleSaveTransaction details now s with
                accounts := as2, categories := cs2 }) := by
  refine ⟨?_, ?_, ?_⟩
  · intro h
    unfold handleSaveTransaction
    rcases h with h | h
    · rw [h]
    · cases hc : s.transactionToEdit with
      | none => rfl
      | some cand => simp [h]
  · intro cand hc hacc
    unfold handleSaveTransaction
    rw [hc]
    simp [hacc]
  · intro as2 cs2
    unfold handleSaveTransaction
    cases hc : s.transactionToEdit with
    | none => simp [hc]
    | some cand =>
        by_cases ha : details.accountId ≠ 0
        · simp [hc, ha]
        · simp [hc, ha]

/-- Witness for the amended C2: both branches at concrete inputs. -/
theorem claim_C2_witness :
    handleSaveTransaction
        { category := cexCategory, notes := "", accountId := 0 } 7
        { initialState [cexAccount] [cexSms1] with
            transactionToEdit := some cexParsed }
      = { initialState [cexAccount] [cexSms1] with
            transactionToEdit := some cexParsed }
  ∧ (handleSaveTransaction
        { category := cexCategory, notes := "", accountId := 5 } 7
        { initialState [cexAccount] [cexSms1] with
            transactionToEdit := some cexParsed }).transactions
      = commitLog
          (mkTransaction cexParsed
            { category := cexCategory, notes := "", accountId := 5 } 7)
          ({ initialState [cexAccount] [cexSms1] with
              transactionToEdit := some cexParsed } : AppState).transactions
  ∧ handleSaveTransaction
        { category := cexCategory, notes := "", accountId := 5 } 7
        { ({ initialState [cexAccount] [cexSms1] with
              transactionToEdit := some cexParsed } : AppState) with
            accounts := [], categories := [cexCategory] }
      = { handleSaveTransaction
            { category := cexCategory, notes := "", accountId := 5 } 7
            { initialState [cexAccount] [cexSms1] with
                transactionToEdit := some cexParsed } with
            accounts := [], categories := [cexCategory] } :=
  ⟨(claim_C2_amended _ _ 7).1 (Or.inr rfl),
   (claim_C2_amended _ _ 7).2.1 cexParsed rfl (by decide),
   (claim_C2_amended _ _ 7).2.2 [] [cexCategory]⟩

/-- A candidate that lacks `amount` (as the external parser can produce at
runtime). -/
def cexCandNoAmount : ParsedTransaction :=
  { amount := none, type := some TxType.expense, bank := none,
    date := some 3, time := none }

/-- **C7** (corrected, counterexample).  A commit attempt whose staged
candidate lacks `amount` is not re-validated and does not fail with
`IncompleteDataError`: the commit goes through and appends the incomplete
transaction to the log. -/
theorem claim_C7_counterexample :
    cexCandNoAmount.amount = none
  ∧ (handleSaveTransaction
        { category := cexCategory, notes := "", accountId := 5 } 7
        { initialState [cexAccount] [cexSms1] with
            transactionToEdit := some cexCandNoAmount }).transactions
      = [mkTransaction cexCandNoAmount
          { category := cexCategory, notes := "", accountId := 5 } 7] := by
  refine ⟨rfl, ?_⟩
  show commitLog _ [] = _
  exact commitLog_nil _

/-- **C7** (amended).  The commit operation performs no defensive
re-validation and no `IncompleteDataError` exists: any staged candidate —
even one lacking `amount` or `type` — is committed as-is once
`details.accountId` is nonzero.  Completeness is enforced only at parse
time: a parser resolution either leaves the staged candidate unchanged or
stages one whose `amount` and `type` are both truthy, so a candidate staged
by the pipeline itself is never incomplete. -/
theorem claim_C7_amended (s : AppState) (cand : ParsedTransaction)
    (details : SaveDetails) (now : Int)
    (hc : s.transactionToEdit = some cand) (hacc : details.accountId ≠ 0) :
    (handleSaveTransaction details now s).transactions
        = commitLog (mkTransaction cand details now) s.transactions
  ∧ (∀ (res : Option ParsedTransaction) (y : Int),
        (handleParseSmsResolve res y s).transactionToEdit = s.transactionToEdit
      ∨ ∃ c2, (handleParseSmsResolve res y s).transactionToEdit = some c2
            ∧ truthyAmount c2.amount = true ∧ truthyType c2.type = true) := by
  constructor
  · unfold handleSaveTransaction
    rw [hc]
    simp [hacc]
  · intro res y
    unfold handleParseSmsResolve
    split
    · exact Or.inl rfl
    · split
      · exact Or.inl rfl
      · split
        · rename_i pd hpd
          simp only [Bool.and_eq_true] at hpd
          exact Or.inr ⟨{ pd with date := some (pd.date.getD y) }, rfl, hpd.1, hpd.2⟩
        · exact Or.inl rfl

/-- Witness for the amended C7: committing a candidate with no amount. -/
theorem claim_C7_witness :
    (handleSaveTransaction
        { category := cexCategory, notes := "", accountId := 5 } 7
        { initialState [cexAccount] [cexSms1] with
            transactionToEdit := some cexCandNoAmount }).transactions
      = commitLog
          (mkTransaction cexCandNoAmount
            { category := cexCategory, notes := "", accountId := 5 } 7)
          ({ initialState [cexAccount] [cexSms1] with
              transactionToEdit := some cexCandNoAmount } : AppState).transactions :=
  (claim_C7_amended _ cexCandNoAmount _ 7 rfl (by decide)).1

/-- The C6 counterexample trace: parse message 1, then (single-flight being
unenforced) also parse message 2; message 1's parser response arrives first
and is staged; the user commits it. -/
def cexTrace6 : List Event :=
  [Event.startParse cexSms1, Event.startParse cexSms2,
   Event.resolveParse (some cexParsed) 100,
   Event.save { category := cexCategory, notes := "", accountId := 5 } 200]

/-- **C6** (corrected, counterexample).  With the parses of messages 1 and 2
both in flight, message 1's result is staged and committed, but removal goes
by `smsToProcess`, which the second `startParse` redirected: message 2 is
removed from the inbox although no transaction derived from it was committed,
and message 1 stays although the commit of its derived transaction
succeeded — both directions of the claimed iff fail. -/
theorem claim_C6_counterexample :
    (run (initialState [cexAccount] [cexSms1, cexSms2]) cexTrace6).smsInbox
      = [cexSms1]
  ∧ (run (initialState [cexAccount] [cexSms1, cexSms2]) cexTrace6).transactions
      = [mkTransaction { cexParsed with date := some 3 }
          { category := cexCategory, notes := "", accountId := 5 } 200] := by
  constructor
  · rfl
  · show commitLog _ [] = _
    exact commitLog_nil _

/-- **C6** (amended).  On parse failure (reject, or incomplete result) and on
abort, the inbox and the log are unchanged at that step.  A successful commit
removes exactly the messages whose id equals the id of the message currently
referenced by `smsToProcess`; when abort or a later `startParse` has cleared
or redirected that reference before the commit, the commit still goes
through but removes nothing (or removes the redirected message) — removal
tracks `smsToProcess`, not the candidate's true origin. -/
theorem claim_C6_amended (s : AppState) (cand : ParsedTransaction) (m : MockSms)
    (details : SaveDetails) (now : Int)
    (hc : s.transactionToEdit = some cand) (hacc : details.accountId ≠ 0)
    (hm : s.smsToProcess = some m) :
    (handleSaveTransaction details now s).smsInbox
        = s.smsInbox.filter (fun x => x.id ≠ m.id)
  ∧ (∀ (res : Option ParsedTransaction) (y : Int),
        (handleParseSmsResolve res y s).smsInbox = s.smsInbox
      ∧ (handleParseSmsResolve res y s).transactions = s.transactions)
  ∧ (∀ msg, (handleRejectParse msg s).smsInbox = s.smsInbox
      ∧ (handleRejectParse msg s).transactions = s.transactions)
  ∧ ((handleCloseEditModal s).smsInbox = s.smsInbox
      ∧ (handleCloseEditModal s).transactions = s.transactions)
  ∧ (∀ s2 : AppState, s2.smsToProcess = none → s2.transactionToEdit = some cand →
        ((handleSaveTransaction details now s2).smsInbox = s2.smsInbox
       ∧ (handleSaveTransaction details now s2).transactions
           = commitLog (mkTransaction cand details now) s2.transactions)) := by
  refine ⟨?_, ?_, ?_, ⟨rfl, rfl⟩, ?_⟩
  · unfold handleSaveTransaction
    rw [hc]
    simp [hacc, hm]
  · intro res y
    exact ⟨(resolve_frame res y s).2.1, (resolve_frame res y s).1⟩
  · intro msg
    exact ⟨(reject_frame msg s).2.1, (reject_frame msg s).1⟩
  · intro s2 hnone hc2
    unfold handleSaveTransaction
    rw [hc2]
    simp [hacc, hnone]

/-- The awaiting-review state reached by a clean parse of message 1. -/
def cexStateC6 : AppState :=
  run (initialState [cexAccount] [cexSms1])
    [Event.startParse cexSms1, Event.resolveParse (some cexParsed) 100]

/-- Witness for the amended C6 at the clean awaiting-review state. -/
theorem claim_C6_witness :
    (handleSaveTransaction
        { category := cexCategory, notes := "", accountId := 5 } 200
        cexStateC6).smsInbox
      = cexStateC6.smsInbox.filter (fun x => x.id ≠ cexSms1.id)
  ∧ (∀ msg, (handleRejectParse msg cexStateC6).smsInbox = cexStateC6.smsInbox
      ∧ (handleRejectParse msg cexStateC6).transactions = cexStateC6.transactions) :=
  ⟨(claim_C6_amended cexStateC6 { cexParsed with date := some 3 } cexSms1
      { category := cexCategory, notes := "", accountId := 5 } 200
      rfl (by decide) rfl).1,
   (claim_C6_amended cexStateC6 { cexParsed with date := some 3 } cexSms1
      { category := cexCategory, notes := "", accountId := 5 } 200
      rfl (by decide) rfl).2.2.1⟩

theorem sortedLog_commitAll (l0 : List Transaction) (ts : List Transaction)
    (h : ts ≠ []) : sortedLog (commitAll l0 ts) := by
  induction ts generalizing l0 with
  | nil => exact absurd rfl h
  | cons t ts ih =>
      cases ts with
      | nil => exact sortedLog_commitLog t l0
      | cons u us => exact ih (commitLog t l0) (by simp)

/-- If `x` is in the log and a later commit `b` has the same date key, then
after that commit (and any further ones) `b` stays in front of `x`:
stability of the repeated re-sort. -/
theorem pair_survives_commits (b : Transaction) (ts2 ts3 : List Transaction) :
    ∀ (l : List Transaction) (x : Transaction), x ∈ l → dateKey x = dateKey b →
      List.Sublist [b, x] (commitAll l (ts2 ++ (b :: ts3))) := by
  induction ts2 with
  | nil =>
      intro l x hx hk
      show List.Sublist [b, x] (commitAll (commitLog b l) ts3)
      refine pair_sublist_commitAll ts3 _ ?_ ?_
      · simp [txLe, hk]
      · exact List.pair_sublist_mergeSort txLe_trans txLe_total
          (by simp [txLe, hk])
          (List.cons_sublist_cons.mpr (List.singleton_sublist.mpr hx))
  | cons t ts2 ih =>
      intro l x hx hk
      exact ih (commitLog t l) x (mem_commitLog_of_mem t l hx) hk

/-- Same-key transactions end up most-recently-committed first, whatever was
committed before, between, or after them. -/
theorem tie_break_commits (a b : Transaction) (ts1 ts2 ts3 : List Transaction)
    (hk : dateKey a = dateKey b) :
    ∀ l0 : List Transaction,
      List.Sublist [b, a] (commitAll l0 (ts1 ++ (a :: (ts2 ++ (b :: ts3))))) := by
  induction ts1 with
  | nil =>
      intro l0
      show List.Sublist [b, a] (commitAll (commitLog a l0) (ts2 ++ (b :: ts3)))
      exact pair_survives_commits b ts2 ts3 (commitLog a l0) a
        (self_mem_commitLog a l0) hk
  | cons t ts1 ih =>
      intro l0
      exact ih (commitLog t l0)

/-- **C3** (amended).  After any nonempty sequence of commits (onto any
starting log), the visible log is sorted by date key descending, where the
key of an absent date is `0` — the epoch — not "after everything": an
undated transaction sorts after keys `> 0` but before negative keys (which
is what the app's own Persian-calendar date strings produce).  Transactions
with equal date keys appear most-recently-committed first (`b` committed
after `a` with the same key ends up in front of `a`), regardless of commit
order of the other transactions. -/
theorem claim_C3_order (l0 ts ts1 ts2 ts3 : List Transaction)
    (a b t : Transaction)
    (hts : ts = ts1 ++ (a :: (ts2 ++ (b :: ts3)))) (hk : dateKey a = dateKey b)
    (ht : t.date = none) :
    sortedLog (commitAll l0 ts)
  ∧ List.Sublist [b, a] (commitAll l0 ts)
  ∧ dateKey t = 0 := by
  subst hts
  refine ⟨sortedLog_commitAll l0 _ (by simp),
    tie_break_commits a b ts1 ts2 ts3 hk l0, ?_⟩
  simp [dateKey, ht]

/-- A transaction carrying the (pre-epoch) time value of the app's own
Persian-calendar date format, as `new Date("1403/05/01")` produces. -/
def cexDated : Transaction :=
  { id := 1, accountId := 5, amount := some 10, type := some TxType.expense,
    bank := none, date := some (-17878694400000), time := none,
    category := cexCategory, notes := "" }

def cexUndated : Transaction :=
  { id := 2, accountId := 5, amount := some 20, type := some TxType.income,
    bank := none, date := none, time := none,
    category := cexCategory, notes := "" }

/-- **C3** (corrected, counterexample).  Committing a dated transaction
(with a pre-epoch date key, as the app's Persian date strings parse to) and
then an undated one leaves the undated transaction FIRST in the visible log,
not after all dated transactions: the absent date falls back to the epoch
(key 0), which exceeds negative keys. -/
theorem claim_C3_counterexample :
    cexDated.date.isSome = true ∧ cexUndated.date = none
  ∧ commitAll [] [cexDated, cexUndated] = [cexUndated, cexDated] := by
  refine ⟨rfl, rfl, ?_⟩
  show commitLog cexUndated (commitLog cexDated []) = _
  rw [commitLog_nil]
  exact commitLog_single (by decide)

/-- Two same-key transactions for the C3 witness. -/
def cexTie1 : Transaction :=
  { id := 1, accountId := 5, amount := some 10, type := some TxType.expense,
    bank := none, date := some 3, time := none,
    category := cexCategory, notes := "" }

def cexTie2 : Transaction :=
  { id := 2, accountId := 5, amount := some 20, type := some TxType.income,
    bank := none, date := some 3, time := none,
    category := cexCategory, notes := "" }

/-- Witness for the amended C3 at concrete commits. -/
theorem claim_C3_witness :
    sortedLog (commitAll [] [cexTie1, cexTie2])
  ∧ List.Sublist [cexTie2, cexTie1] (commitAll [] [cexTie1, cexTie2])
  ∧ dateKey cexUndated = 0 :=
  claim_C3_order [] [cexTie1, cexTie2] [] [] [] cexTie1 cexTie2 cexUndated
    rfl rfl rfl

theorem save_eq_of_not_fires (details : SaveDetails) (now : Int) (s : AppState)
    (h : saveFires s details = false) :
    handleSaveTransaction details now s = s := by
  unfold saveFires at h
  unfold handleSaveTransaction
  cases hc : s.transactionToEdit with
  | none => rfl
  | some cand =>
      rw [hc] at h
      simp only [Option.isSome_some, Bool.true_and, decide_eq_false_iff_not,
        Decidable.not_not] at h
      simp [h]

theorem save_transactions_of_fires (details : SaveDetails) (now : Int)
    (s : AppState) (cand : ParsedTransaction)
    (hc : s.transactionToEdit = some cand) (ha : details.accountId ≠ 0) :
    (handleSaveTransaction details now s).transactions
      = commitLog (mkTransaction cand details now) s.transactions := by
  unfold handleSaveTransaction
  rw [hc]
  simp [ha]

theorem saveFires_elim (s : AppState) (details : SaveDetails)
    (h : saveFires s details = true) :
    (∃ cand, s.transactionToEdit = some cand) ∧ details.accountId ≠ 0 := by
  unfold saveFires at h
  simp only [Bool.and_eq_true, Option.isSome_iff_exists, decide_eq_true_eq] at h
  exact h

theorem committedIds_sublist (es : List Event) :
    ∀ s : AppState, List.Sublist (committedIds s es) (saveNows es) := by
  induction es with
  | nil => intro s; exact List.Sublist.refl []
  | cons e es ih =>
      intro s
      cases e with
      | save details now =>
          by_cases h : saveFires s details = true
          · have hx : List.Sublist
                (now :: committedIds (step s (Event.save details now)) es)
                (now :: saveNows es) :=
              List.cons_sublist_cons.mpr (ih (step s (Event.save details now)))
            simpa [committedIds, saveNows, h] using hx
          · simpa [committedIds, saveNows, h] using
              (ih (step s (Event.save details now))).cons now
      | startParse sms => simpa [committedIds, saveNows] using ih _
      | resolveParse res now => simpa [committedIds, saveNows] using ih _
      | rejectParse msg => simpa [committedIds, saveNows] using ih _
      | closeModal => simpa [committedIds, saveNows] using ih _

theorem run_transactions_ids_perm (es : List Event) :
    ∀ s : AppState,
      List.Perm ((run s es).transactions.map (fun t => t.id))
        (committedIds s es ++ s.transactions.map (fun t => t.id)) := by
  induction es with
  | nil => intro s; simp [run, committedIds]
  | cons e es ih =>
      intro s
      have h := ih (step s e)
      cases e with
      | startParse sms =>
          simpa [run, committedIds, step, handleParseSmsStart] using h
      | resolveParse res now =>
          simp only [step] at h
          rw [(resolve_frame res now s).1] at h
          simpa [run, committedIds, step] using h
      | rejectParse msg =>
          simp only [step] at h
          rw [(reject_frame msg s).1] at h
          simpa [run, committedIds, step] using h
      | closeModal =>
          simpa [run, committedIds, step, handleCloseEditModal] using h
      | save details now =>
          by_cases hf : saveFires s details = true
          · obtain ⟨⟨cand, hc⟩, ha⟩ := saveFires_elim s details hf
            have hsave : (step s (Event.save details now)).transactions
                = commitLog (mkTransaction cand details now) s.transactions :=
              save_transactions_of_fires details now s cand hc ha
            have hp2 : List.Perm
                ((step s (Event.save details now)).transactions.map (fun t => t.id))
                (now :: s.transactions.map (fun t => t.id)) := by
              rw [hsave]
              have hms := (List.mergeSort_perm
                (mkTransaction cand details now :: s.transactions) txLe).map
                (fun t => t.id)
              simpa [commitLog, sortTransactions, mkTransaction] using hms
            have h3 := h.trans (List.Perm.append_left
              (committedIds (step s (Event.save details now)) es) hp2)
            have h4 := h3.trans (List.perm_middle)
            simpa [run, committedIds, hf] using h4
          · have hstep : step s (Event.save details now) = s := by
              simp only [step]
              exact save_eq_of_not_fires details now s (by simpa using hf)
            rw [hstep] at h
            simpa [run, committedIds, hf, hstep] using h

/-- **C9** (amended).  Transaction ids are the `Date.now()` clock values of
the commits.  Whenever the clock values of the save events strictly increase
along the trace — i.e. no two commits fall into the same millisecond — the
committed ids strictly increase with commit order and the ids across the
resulting log are pairwise distinct (starting from an empty log). -/
theorem claim_C9_ids (s : AppState) (es : List Event)
    (h0 : s.transactions = [])
    (hmono : (saveNows es).Pairwise (fun a b => a < b)) :
    (committedIds s es).Pairwise (fun a b => a < b)
  ∧ ((run s es).transactions.map (fun t => t.id)).Pairwise (fun a b => a ≠ b) := by
  have hsub := committedIds_sublist es s
  have h1 : (committedIds s es).Pairwise (fun a b => a < b) :=
    List.Pairwise.sublist hsub hmono
  refine ⟨h1, ?_⟩
  have hperm := run_transactions_ids_perm es s
  rw [h0] at hperm
  simp only [List.map_nil, List.append_nil] at hperm
  have h2 : (committedIds s es).Nodup :=
    h1.imp (fun hlt => Int.ne_of_lt hlt)
  exact hperm.nodup_iff.mpr h2

/-- A trace committing twice in the same millisecond (`Date.now() = 5`
twice). -/
def cexTrace9 : List Event :=
  [Event.startParse cexSms1, Event.resolveParse (some cexParsed) 100,
   Event.save { category := cexCategory, notes := "", accountId := 5 } 5,
   Event.startParse cexSms1, Event.resolveParse (some cexParsed) 100,
   Event.save { category := cexCategory, notes := "", accountId := 5 } 5]

/-- **C9** (corrected, counterexample).  Two commits within the same
millisecond (`Date.now()` returns 5 both times) produce two transactions
with the SAME id 5: ids are neither pairwise distinct nor strictly
increasing with commit order. -/
theorem claim_C9_counterexample :
    committedIds (initialState [cexAccount] [cexSms1]) cexTrace9 = [5, 5]
  ∧ ¬ ((run (initialState [cexAccount] [cexSms1]) cexTrace9).transactions.map
        (fun t => t.id)).Pairwise (fun a b => a ≠ b) := by
  have hc : committedIds (initialState [cexAccount] [cexSms1]) cexTrace9
      = [5, 5] := by decide
  refine ⟨hc, fun hpw => ?_⟩
  have hperm := run_transactions_ids_perm cexTrace9
    (initialState [cexAccount] [cexSms1])
  rw [hc] at hperm
  simp only [show (initialState [cexAccount] [cexSms1]).transactions = []
      from rfl, List.map_nil, List.append_nil] at hperm
  have h2 : ([5, 5] : List Int).Nodup := hperm.nodup_iff.mp hpw
  simp at h2

/-- A trace with two commits in distinct milliseconds. -/
def cexTrace9w : List Event :=
  [Event.startParse cexSms1, Event.resolveParse (some cexParsed) 100,
   Event.save { category := cexCategory, notes := "", accountId := 5 } 5,
   Event.startParse cexSms1, Event.resolveParse (some cexParsed) 100,
   Event.save { category := cexCategory, notes := "", accountId := 5 } 9]

/-- Witness for the amended C9: strictly increasing clock values give
strictly increasing, distinct ids. -/
theorem claim_C9_witness :
    (committedIds (initialState [cexAccount] [cexSms1]) cexTrace9w).Pairwise
        (fun a b => a < b)
  ∧ ((run (initialState [cexAccount] [cexSms1]) cexTrace9w).transactions.map
        (fun t => t.id)).Pairwise (fun a b => a ≠ b) :=
  claim_C9_ids (initialState [cexAccount] [cexSms1]) cexTrace9w rfl (by decide)

end MyAppTracker
